import Mathlib

/-!
# ParakeetBot voice-call core: shallow embedding

A shallow embedding of the voice-call lifecycle subsystem of ParakeetBot:

* `src/data/queue_metadata.rs` — `QueueMeta`, `TrackMetadata`, `display_string`;
* `src/lib/call.rs` — `join_author`, `enqueue`, the songbird manager interface;
* `src/lib/events.rs` — `init_global_events` and the three global event
  handlers `CheckIdle`, `DisconnectStop`, `RemoveMeta`.

Modelling conventions:

* `QueueMeta`'s inner `VecDeque<TrackMetadata>` is a `List TrackMetadata`
  with the front of the deque at the head of the list.
* The songbird playback queue (`call.queue()`) is a `List Nat` of opaque
  audio-source handles, front (currently playing track) at the head.
* Rust `std::time::Duration` appears only through `as_secs`, so durations
  are modelled as `Nat` seconds.
* Rust `String::len` is the UTF-8 byte length; it is modelled by `byteLen`,
  the sum of `Char.utf8Size` over the characters.
* A songbird global event handler's `act` returns `Option Event`; returning
  `none` keeps the handler registered ("continue"), returning
  `some .cancel` would remove it permanently.  The external notification
  context argument is never inspected by this code and is omitted.
* Fallible external lookups performed by a handler (channel resolution,
  member-list resolution, the transport join) are modelled by passing the
  lookup's outcome in as an explicit argument.
-/

/-! ## Data model (`src/data/queue_metadata.rs`) -/

/-- `TrackMetadata` (queue_metadata.rs): per-track display metadata, all
fields optional.  `duration` is in whole seconds (`Duration::as_secs`). -/
structure TrackMetadata where
  title : Option String
  duration : Option Nat
  channel : Option String
  thumbnail_url : Option String
  url : Option String
deriving DecidableEq, Repr

/-- The successful result of `input.aux_metadata()` (songbird `AuxMetadata`),
the external media resolver's output consumed by `TrackMetadata::from_input`. -/
structure AuxMetadata where
  title : Option String
  duration : Option Nat
  channel : Option String
  thumbnail : Option String
  source_url : Option String
deriving DecidableEq, Repr

/-- A songbird `Input`: an opaque audio source (`source` is its handle)
together with the outcome of its fallible `aux_metadata()` call
(`none` models `AuxMetadataError`). -/
structure Input where
  aux : Option AuxMetadata
  source : Nat
deriving DecidableEq, Repr

/-- The error cases of `ParakeetError` reachable in this subsystem. -/
inductive ParakeetErr where
  /-- `UserError::GuildOnly` -/
  | guildOnly
  /-- `UserError::NotInGuild` -/
  | notInGuild
  /-- `UserError::NotInVoice` -/
  | notInVoice
  /-- `ParakeetError::MetadataError` (from `input.aux_metadata()`) -/
  | metadataError
  /-- `ParakeetError::Songbird` (a `JoinError` from the transport join) -/
  | joinError
deriving DecidableEq, Repr

/-- `TrackMetadata::from_input` (queue_metadata.rs:91-105): reads the
input's aux metadata, failing when `aux_metadata()` fails. -/
def TrackMetadata.from_input (input : Input) : Except ParakeetErr TrackMetadata :=
  match input.aux with
  | none => .error .metadataError
  | some meta =>
      .ok { title := meta.title
            duration := meta.duration
            channel := meta.channel
            thumbnail_url := meta.thumbnail
            url := meta.source_url }

/-! ## Call and handler registration state -/

/-- A registered global event handler, tagged with the event it was bound
to in `init_global_events` (events.rs:41-43). -/
inductive GlobalHandler where
  /-- `CheckIdle` bound to `Event::Periodic(duration, None)`. -/
  | checkIdle (periodSecs : Nat)
  /-- `DisconnectStop` bound to `Event::Core(CoreEvent::DriverDisconnect)`. -/
  | disconnectStop
  /-- `RemoveMeta` bound to `Event::Track(TrackEvent::End)`. -/
  | removeMeta
deriving DecidableEq, Repr

/-- A songbird `Call` (the fields this subsystem reads or writes): the
current voice channel (`none` once disconnected), the playback queue of
audio-source handles, and the list of registered global event handlers in
registration order. -/
structure CallModel where
  current_channel : Option Nat
  queue : List Nat
  handlers : List GlobalHandler
deriving DecidableEq, Repr

/-- A freshly inserted `songbird::Call` (`Songbird::get_or_insert` on a
missing key): disconnected, empty queue, no handlers. -/
def CallModel.fresh : CallModel := ⟨none, [], []⟩

/-- `Call::leave`: terminates the voice connection, clearing the current
channel.  The playback queue is not touched here; it is cleared later by
the `DriverDisconnect` event (`DisconnectStop`). -/
def CallModel.leave (c : CallModel) : CallModel :=
  { c with current_channel := none }

/-- A songbird `Event` as far as handler results are concerned: `act`
returning `none` keeps the handler registered, `some .cancel` would
remove it.  Every handler in events.rs returns `none`. -/
inductive SbEvent where
  | cancel
deriving DecidableEq, Repr

/-! ## The three global event handlers (`src/lib/events.rs`) -/

/-- A channel member as seen by `CheckIdle` (only `user.bot` is read). -/
structure Member where
  bot : Bool
deriving DecidableEq, Repr

/-- Outcome of `CheckIdle`'s member-list resolution
(events.rs:89-91): each fallible step, or the resolved member list. -/
inductive MemberLookup where
  /-- `channel_id.to_channel(..)` failed. -/
  | channelErr
  /-- `channel.guild()` returned `None` (not a guild channel). -/
  | notGuildChannel
  /-- `guild.members(..)` failed. -/
  | membersErr
  /-- All three steps succeeded with this member list. -/
  | ok (members : List Member)
deriving DecidableEq, Repr

/-- Result of one `CheckIdle::act` tick: the call afterwards, whether
`call.leave()` was invoked, and the handler result (`none` = stay
registered). -/
structure IdleOutcome where
  call : CallModel
  didLeave : Bool
  result : Option SbEvent
deriving DecidableEq, Repr

/-- `CheckIdle::act` (events.rs:79-110).  With a current channel it
resolves the member list (any failure: retry on next trigger, no leave);
with at least one non-bot member it does nothing; with none it leaves.
Without a current channel it calls `leave()` ("No channel means stop."),
swallowing any error.  Every branch returns `none`. -/
def CheckIdle.act (call : CallModel) (lookup : MemberLookup) : IdleOutcome :=
  match call.current_channel with
  | some _ =>
      match lookup with
      | .ok members =>
          if members.any (fun m => !m.bot) then
            { call := call, didLeave := false, result := none }
          else
            { call := call.leave, didLeave := true, result := none }
      | _ => { call := call, didLeave := false, result := none }
  | none => { call := call.leave, didLeave := true, result := none }

/-- Result of one `DisconnectStop::act` trigger: the call and the
session's queue metadata afterwards, and the handler result. -/
structure DisconnectOutcome where
  call : CallModel
  meta : List TrackMetadata
  result : Option SbEvent
deriving DecidableEq, Repr

/-- `DisconnectStop::act` (events.rs:142-147): `call.queue().stop()` ends
the current track and clears the playback queue.  Nothing else is
touched: in particular the queue metadata is left as it is. -/
def DisconnectStop.act (call : CallModel) (meta : List TrackMetadata) :
    DisconnectOutcome :=
  { call := { call with queue := [] }, meta := meta, result := none }

/-- What `RemoveMeta::act` logs on one trigger. -/
inductive TrackEndLog where
  /-- "Tried to remove track metadata from empty queue." (error level) -/
  | emptyQueueAnomaly
  /-- "Removing metadata for {title}" (debug level) -/
  | removing (title : String)
deriving DecidableEq, Repr

/-- Result of one `RemoveMeta::act` trigger. -/
structure TrackEndOutcome where
  call : CallModel
  meta : List TrackMetadata
  log : TrackEndLog
  result : Option SbEvent
deriving DecidableEq, Repr

/-- `RemoveMeta::act` (events.rs:181-193): pops the front of the queue
metadata; on an already-empty queue it logs an anomaly and changes
nothing.  The call (and hence the playback queue) is never touched, and
the result is always `none` (stay registered). -/
def RemoveMeta.act (call : CallModel) (meta : List TrackMetadata) :
    TrackEndOutcome :=
  match meta with
  | [] =>
      { call := call, meta := [], log := .emptyQueueAnomaly, result := none }
  | m :: rest =>
      { call := call, meta := rest
        log := .removing (m.title.getD "<NO TITLE>")
        result := none }

/-! ## `enqueue` (`src/lib/call.rs:77-100`) -/

instance {ε α : Type} [DecidableEq ε] [DecidableEq α] :
    DecidableEq (Except ε α) := fun a b =>
  match a, b with
  | .ok x, .ok y => decidable_of_iff (x = y) (by simp)
  | .error x, .error y => decidable_of_iff (x = y) (by simp)
  | .ok _, .error _ => isFalse (by simp)
  | .error _, .ok _ => isFalse (by simp)

/-- Result of `enqueue`: session metadata and call afterwards, plus the
returned track handle or the propagated error. -/
structure EnqueueOutcome where
  meta : List TrackMetadata
  call : CallModel
  result : Except ParakeetErr Nat
deriving DecidableEq, Repr

/-- `enqueue` (call.rs:77-100): resolve the track's metadata
(`TrackMetadata::from_input`, propagating its error before any mutation),
push it onto the back of the queue metadata, then enqueue the input on
the call's playback queue and return its track handle. -/
def enqueue (meta : List TrackMetadata) (call : CallModel) (input : Input) :
    EnqueueOutcome :=
  match TrackMetadata.from_input input with
  | .error e => { meta := meta, call := call, result := .error e }
  | .ok md =>
      { meta := meta ++ [md]
        call := { call with queue := call.queue ++ [input.source] }
        result := .ok input.source }

/-! ## Display (`src/data/queue_metadata.rs:51-72`, `src/lib/mod.rs`) -/

/-- Rust `String::len`: the UTF-8 byte length of the string. -/
def byteLen (s : String) : Nat := (s.data.map Char.utf8Size).sum

/-- Rust `format!` `{n:02}`: decimal, zero-padded to width 2. -/
def pad2 (n : Nat) : String := if n < 10 then "0" ++ toString n else toString n

/-- `format_duration` (lib/mod.rs:10-23) on a duration of `totalSecs`
whole seconds. -/
def format_duration (totalSecs : Nat) : String :=
  let totalMins := totalSecs / 60
  let hours := totalMins / 60
  let mins := totalMins % 60
  let secs := totalSecs % 60
  if hours > 0 then
    "[" ++ pad2 hours ++ "h:" ++ pad2 mins ++ "m:" ++ pad2 secs ++ "s]"
  else
    "[" ++ pad2 mins ++ "m:" ++ pad2 secs ++ "s]"

/-- `impl Display for TrackMetadata` (queue_metadata.rs:108-123). -/
def TrackMetadata.displayFmt (t : TrackMetadata) : String :=
  let title := t.title.getD "<MISSING TITLE>"
  let channel := t.channel.getD ""
  let duration :=
    match t.duration with
    | none => ""
    | some dur => format_duration dur
  match t.url with
  | some source_url =>
      "[" ++ title ++ " " ++ duration ++ " " ++ channel ++ "](" ++ source_url ++ ")"
  | none => title ++ " " ++ duration ++ " " ++ channel

/-- One line of `QueueMeta::display_string`'s loop:
`format!` of a backquoted number, a dot, and the track's display form. -/
def numberedLine (num : Nat) (t : TrackMetadata) : String :=
  "`" ++ toString num ++ ".` " ++ t.displayFmt

/-- The `for (num, track) in queue.iter().enumerate()` loop of
`QueueMeta::display_string` (queue_metadata.rs:61-69): append each
numbered line plus `"\n"` to the buffer, breaking out of the loop as soon
as a line would push the buffer past 4096 bytes. -/
def QueueMeta.displayLoop : List TrackMetadata → Nat → String → String
  | [], _, buffer => buffer
  | track :: rest, num, buffer =>
      let next_line := numberedLine num track
      if byteLen buffer + byteLen next_line > 4096 then buffer
      else QueueMeta.displayLoop rest (num + 1) (buffer ++ next_line ++ "\n")

/-- `QueueMeta::display_string` (queue_metadata.rs:53-71): `"Empty
queue!"` on the empty queue, otherwise the bounded numbered listing,
numbering from 0 (Rust `enumerate`). -/
def QueueMeta.display_string (queue : List TrackMetadata) : String :=
  if queue.isEmpty then "Empty queue!"
  else QueueMeta.displayLoop queue 0 ""

/-- Specification-side rendering of the listing, for comparison with
`QueueMeta.display_string`: the numbered lines of the tracks in order
starting at `num`, greedily cut off once the accumulated rendered size
`used` would exceed 4096 bytes (each kept line also costs one byte for
its newline). -/
def specLines : List TrackMetadata → Nat → Nat → List String
  | [], _, _ => []
  | track :: rest, num, used =>
      let line := numberedLine num track
      if used + byteLen line > 4096 then []
      else line :: specLines rest (num + 1) (used + byteLen line + 1)

/-! ## Call registry (`src/lib/events.rs:23-49`, `src/lib/call.rs:42-74`) -/

/-- The three events registered by `init_global_events`
(events.rs:36-43), in registration order. -/
def initHandlers : List GlobalHandler :=
  [.checkIdle 300, .disconnectStop, .removeMeta]

/-- `init_global_events` (events.rs:23-49), run to completion without
interleaving, acting on this guild's manager slot `reg`.  `guildPresent`
is whether `ctx.guild_id()` resolves (its absence is `GuildOnly`; it also
makes the handlers' `guild_data` lookup succeed).  If the slot is
occupied the call is returned unchanged and nothing is registered;
otherwise `get_or_insert` creates a fresh call, the three events are
created and registered on it, and it is returned. -/
def init_global_events (reg : Option CallModel) (guildPresent : Bool) :
    Option CallModel × Except ParakeetErr CallModel :=
  if guildPresent then
    match reg with
    | some call => (some call, .ok call)
    | none =>
        let call := { CallModel.fresh with handlers := initHandlers }
        (some call, .ok call)
  else (reg, .error .guildOnly)

/-- `Songbird::join` (external transport collaborator, spec section 6):
`get_or_insert` the guild's call, then attempt the voice connection on
it.  On success the call is connected to the channel; on failure the
`JoinError` is returned and the manager keeps the (disconnected) entry —
songbird has no removal-on-failure path and none exists in this
repository. -/
def Songbird.join (reg : Option CallModel) (channelId : Nat)
    (succeeds : Bool) : Option CallModel × Except ParakeetErr CallModel :=
  let call := reg.getD CallModel.fresh
  if succeeds then
    let connected := { call with current_channel := some channelId }
    (some connected, .ok connected)
  else (some call, .error .joinError)

/-- The context facts `join_author` consults. -/
structure JoinEnv where
  /-- `ctx.guild_id()` / `ctx.guild()` resolve to the author's guild. -/
  guildPresent : Bool
  /-- The author's voice-state channel, if they are in a voice channel. -/
  authorChannel : Option Nat
  /-- Whether the transport join succeeds. -/
  joinSucceeds : Bool
deriving DecidableEq, Repr

/-- `join_author` (call.rs:42-74): first `init_global_events` (which
creates the entry and registers the handlers when the slot is empty),
then resolve the author's guild and voice channel, then `manager.join`.
Each failing step propagates its error with `?`. -/
def join_author (reg : Option CallModel) (env : JoinEnv) :
    Option CallModel × Except ParakeetErr CallModel :=
  match init_global_events reg env.guildPresent with
  | (reg', .error e) => (reg', .error e)
  | (reg', .ok _) =>
      if env.guildPresent then
        match env.authorChannel with
        | none => (reg', .error .notInVoice)
        | some channelId => Songbird.join reg' channelId env.joinSucceeds
      else (reg', .error .notInGuild)

/-! ## Per-session operation sequences (claim C2)

One session's state is its queue metadata together with its call.  A
completed `enqueue` and a delivered track-end are the two operations that
mutate the two queues. -/

/-- An operation on one session. -/
inductive SessionOp where
  /-- A call to `enqueue` with this input (command handler run to
  completion). -/
  | enqueueOp (input : Input)
  /-- The currently playing track finished: the transport advances the
  playback queue and delivers `TrackEvent::End` to `RemoveMeta`. -/
  | trackEndOp
deriving DecidableEq, Repr

/-- songbird `TrackQueue` auto-advance (external transport collaborator,
spec sections 4.2 and 6): when the playing track ends it is removed from
the front of the playback queue. -/
def queueAdvance (q : List Nat) : List Nat := q.tail

/-- Apply one completed session operation to the session state. -/
def sessionStep (s : List TrackMetadata × CallModel) (op : SessionOp) :
    List TrackMetadata × CallModel :=
  match op with
  | .enqueueOp input =>
      let o := enqueue s.1 s.2 input
      (o.meta, o.call)
  | .trackEndOp =>
      let o := RemoveMeta.act { s.2 with queue := queueAdvance s.2.queue } s.1
      (o.meta, o.call)

/-- Run a sequence of session operations from the empty session state. -/
def sessionRun (ops : List SessionOp) : List TrackMetadata × CallModel :=
  ops.foldl sessionStep ([], CallModel.fresh)

/-! ## The event trace of one enqueue (claim C6) -/

/-- Observable session events around one enqueue. -/
inductive SessionEvent where
  /-- `queue_meta.push_back(metadata)` (call.rs:92). -/
  | metaPush
  /-- `call.enqueue_input(input)` (call.rs:96). -/
  | playEnqueue
  /-- A later `TrackEvent::End` delivery for the session. -/
  | trackEndEvt
deriving DecidableEq, Repr

/-- The session-ordered event trace of one call to `enqueue`
(program order of call.rs:90-97: metadata resolution, then `push_back`,
then `enqueue_input`; nothing is emitted when metadata resolution fails),
followed by `laterTrackEnds` subsequent track-end deliveries, which can
only happen after the command handler has returned. -/
def enqueueTrace (input : Input) (laterTrackEnds : Nat) : List SessionEvent :=
  (match TrackMetadata.from_input input with
   | .error _ => []
   | .ok _ => [.metaPush, .playEnqueue]) ++
  List.replicate laterTrackEnds .trackEndEvt

/-! ## Concurrent `init_global_events` invocations (claim C3)

The async execution model of the spec (section 5): lightweight
cooperative tasks that interleave only at suspension points.  One
invocation of `init_global_events` for a fixed guild decomposes into
atomic segments separated by its `await`s:

* `start`: `manager.get` and, when the slot is empty, `get_or_insert`
  plus the synchronous construction of `CheckIdle` and `DisconnectStop`
  (events.rs:28-37 — no `await` between the lookup and the insert);
* `mkEnd`: `RemoveMeta::new(..).await` (succeeds: the guild was already
  resolved at events.rs:25);
* `regIdle`, `regDc`, `regEnd`: the three awaited `register` calls, each
  appending one handler to the call that is in the manager slot;
* `finished fresh`: returned (`fresh` = this task did the wiring).

Only the handler list of the single shared entry matters here. -/

/-- Program counter of one task running `init_global_events`. -/
inductive TaskPC where
  | start
  | mkEnd
  | regIdle
  | regDc
  | regEnd
  | finished (fresh : Bool)
deriving DecidableEq, Repr

/-- Shared manager slot (the entry's registered-handler list) plus every
task's program counter. -/
structure RegState where
  entry : Option (List GlobalHandler)
  tasks : List TaskPC
deriving DecidableEq, Repr

/-- `call.add_global_event` on the shared entry. -/
def pushHandler (e : Option (List GlobalHandler)) (h : GlobalHandler) :
    Option (List GlobalHandler) :=
  e.map (fun hs => hs ++ [h])

/-- One atomic segment of one task, given the shared slot: returns the
slot and that task's next program counter. -/
def taskStep (entry : Option (List GlobalHandler)) :
    TaskPC → Option (List GlobalHandler) × TaskPC
  | .start =>
      match entry with
      | some hs => (some hs, .finished false)
      | none => (some [], .mkEnd)
  | .mkEnd => (entry, .regIdle)
  | .regIdle => (pushHandler entry (.checkIdle 300), .regDc)
  | .regDc => (pushHandler entry .disconnectStop, .regEnd)
  | .regEnd => (pushHandler entry .removeMeta, .finished true)
  | .finished b => (entry, .finished b)

/-- Run task `i`'s next atomic segment. -/
def applyTask (s : RegState) (i : Fin s.tasks.length) : RegState :=
  let r := taskStep s.entry (s.tasks.get i)
  { entry := r.1, tasks := s.tasks.set i r.2 }

/-- Interleaving: some task runs its next atomic segment. -/
def RegStep (s s' : RegState) : Prop :=
  ∃ i : Fin s.tasks.length, s' = applyTask s i

/-- `n` concurrent `init_global_events` invocations against an empty
manager slot. -/
def regInit (n : Nat) : RegState :=
  { entry := none, tasks := List.replicate n .start }

/-- States reachable from `regInit n` by interleaving. -/
def regReachable (n : Nat) (s : RegState) : Prop :=
  Relation.ReflTransGen RegStep (regInit n) s

/-! ## Concrete fixtures -/

/-- A track titled "Song A" with no other metadata. -/
def songA : TrackMetadata := ⟨some "Song A", none, none, none, none⟩

/-- A track titled "Song B" with no other metadata. -/
def songB : TrackMetadata := ⟨some "Song B", none, none, none, none⟩

/-- Resolver output titled "Song A". -/
def auxA : AuxMetadata := ⟨some "Song A", none, none, none, none⟩

/-- An input whose metadata resolution succeeds with `auxA`. -/
def inputA : Input := ⟨some auxA, 7⟩

/-! ## Theorems -/

/-- Claim C1 (code_bug witness at the failing input): with one metadata
entry and one queued track, a transport-disconnect delivery to
`DisconnectStop::act` leaves the playback queue at length 0 but the
session's QueueMetadata still at length 1 — the handler only runs
`queue().stop()`, contradicting its own doc comment ("Reset
[QueueMeta]") and the claim. -/
theorem disconnect_keeps_queue_metadata :
    (DisconnectStop.act ⟨some 1, [10], initHandlers⟩ [songA]).call.queue.length = 0 ∧
    (DisconnectStop.act ⟨some 1, [10], initHandlers⟩ [songA]).meta.length = 1 := by
  constructor <;> rfl

/-- Claim C4 (counterexample): an idle-monitor tick on a call with no
current channel does call `leave()` — the `else` branch of
`CheckIdle::act` (events.rs:105-109, "No channel means stop.") — so the
tick is not the claimed leave-free no-op. -/
theorem idle_tick_no_channel_calls_leave :
    (⟨none, [5], initHandlers⟩ : CallModel).current_channel = none ∧
    (CheckIdle.act ⟨none, [5], initHandlers⟩ .channelErr).didLeave = true := by
  constructor <;> rfl

/-- Claim C4 (amended): an idle-monitor tick on a call with no current
channel performs no membership lookup, leaves the call (and hence every
queue) unchanged, produces no error and keeps the handler registered —
but it does invoke `leave()` (on the already-disconnected call, any
error swallowed). -/
theorem idle_tick_no_channel_behavior
    (lookup : MemberLookup) (q : List Nat) (hs : List GlobalHandler) :
    CheckIdle.act ⟨none, q, hs⟩ lookup =
      { call := ⟨none, q, hs⟩, didLeave := true, result := none } := rfl

/-- Claim C5 (counterexample): it is not true that `leave()` is only
called after a successful membership lookup observing zero non-bot
members — on a call with no current channel the tick calls `leave()`
although no lookup succeeded (none is even attempted). -/
theorem idle_leave_without_lookup :
    ¬ ∀ (c : CallModel) (lk : MemberLookup),
        (CheckIdle.act c lk).didLeave = true →
        c.current_channel.isSome = true ∧
        ∃ ms, lk = .ok ms ∧ ms.any (fun m => !m.bot) = false := by
  intro h
  have := (h ⟨none, [5], initHandlers⟩ .channelErr rfl).1
  simp [Option.isSome] at this

/-- Claim C5 (amended): the idle monitor calls `leave()` in exactly two
cases — the call has no current channel, or a membership lookup
succeeded at check time and observed zero non-bot members.  In
particular, with a channel present it never leaves while a non-bot
member is observed, and never leaves on a lookup failure. -/
theorem idle_leave_characterization (c : CallModel) (lk : MemberLookup) :
    (CheckIdle.act c lk).didLeave = true ↔
      (c.current_channel = none ∨
        (c.current_channel ≠ none ∧
          ∃ ms, lk = .ok ms ∧ ms.any (fun m => !m.bot) = false)) := by
  obtain ⟨ch, q, hs⟩ := c
  cases ch with
  | none => simp [CheckIdle.act]
  | some chId =>
      cases lk with
      | ok ms =>
          cases hm : ms.any (fun m => !m.bot) with
          | true =>
              simp [CheckIdle.act, hm]
              simpa using hm
          | false =>
              simp [CheckIdle.act, hm]
              simpa using hm
      | channelErr => simp [CheckIdle.act]
      | notGuildChannel => simp [CheckIdle.act]
      | membersErr => simp [CheckIdle.act]

/-- Claim C6 (counterexample): for a successful enqueue followed by a
track-end, the metadata push does not come after the playback enqueue in
the session's event trace — its index is strictly smaller. -/
theorem meta_push_not_after_play_enqueue :
    ¬ ((enqueueTrace inputA 1).indexOf .playEnqueue <
        (enqueueTrace inputA 1).indexOf .metaPush) ∧
    .metaPush ∈ enqueueTrace inputA 1 ∧
    .playEnqueue ∈ enqueueTrace inputA 1 := by
  refine ⟨?_, ?_, ?_⟩ <;> decide

/-- Claim C6 (amended): for every successful enqueue, the metadata push
happens before (not after) the corresponding playback enqueue, and
before any subsequent track-end processing for that track: the trace of
the command handler is metadata push, then playback enqueue, then the
later track-ends. -/
theorem meta_push_before_play_enqueue
    (input : Input) (md : TrackMetadata) (k : Nat)
    (h : TrackMetadata.from_input input = .ok md) :
    enqueueTrace input k =
      .metaPush :: .playEnqueue :: List.replicate k .trackEndEvt := by
  simp [enqueueTrace, h]

/-- Witness for `meta_push_before_play_enqueue` at `inputA`, one later
track-end. -/
theorem meta_push_before_play_enqueue_witness :
    enqueueTrace inputA 1 =
      .metaPush :: .playEnqueue :: List.replicate 1 .trackEndEvt :=
  meta_push_before_play_enqueue inputA
    ⟨some "Song A", none, none, none, none⟩ 1 rfl

/-- Claim C7 (counterexample): when the transport join fails,
`join_author` on an empty registry slot does return the connection
error, but a call entry is stored nonetheless — `init_global_events`
created it and registered its handlers before the join was attempted. -/
theorem join_failure_stores_entry :
    (join_author none ⟨true, some 7, false⟩).2 = .error .joinError ∧
    (join_author none ⟨true, some 7, false⟩).1 ≠ none := by
  constructor
  · rfl
  · intro h
    simp [join_author, init_global_events, Songbird.join] at h

/-- Claim C7 (amended): if the transport join fails, `join_author`
returns the connection error, but the entry created by
`init_global_events` before the join attempt remains stored, with its
three handlers registered; when an entry already existed it likewise
remains stored unchanged. -/
theorem join_failure_behavior :
    (∀ ch : Nat, join_author none ⟨true, some ch, false⟩ =
      (some { CallModel.fresh with handlers := initHandlers },
        .error .joinError)) ∧
    (∀ (c : CallModel) (ch : Nat), join_author (some c) ⟨true, some ch, false⟩ =
      (some c, .error .joinError)) := by
  constructor <;> intros <;> rfl

/-- Claim C9: a track-end delivery on an already-empty QueueMetadata
logs the desynchronization anomaly and leaves all state unchanged — the
call (hence the playback queue) and the metadata are untouched and the
handler returns `none` (continue), so it stays registered. -/
theorem trackend_on_empty_metadata_noop (call : CallModel) :
    RemoveMeta.act call [] =
      { call := call, meta := [], log := .emptyQueueAnomaly,
        result := none } := rfl

/-- Claim C10: if resolving the track's metadata fails, `enqueue`
returns that error and modifies neither the queue metadata nor the
playback queue. -/
theorem enqueue_error_atomic
    (meta : List TrackMetadata) (call : CallModel) (input : Input)
    (e : ParakeetErr) (h : TrackMetadata.from_input input = .error e) :
    enqueue meta call input = { meta := meta, call := call, result := .error e } := by
  simp [enqueue, h]

/-- One completed session operation preserves equality of the metadata
and playback queue lengths. -/
theorem sessionStep_preserves_length (s : List TrackMetadata × CallModel)
    (op : SessionOp) (h : s.1.length = s.2.queue.length) :
    (sessionStep s op).1.length = (sessionStep s op).2.queue.length := by
  obtain ⟨meta, call⟩ := s
  cases op with
  | enqueueOp input =>
      cases hin : TrackMetadata.from_input input with
      | error e => simpa [sessionStep, enqueue, hin] using h
      | ok md =>
          simp only [sessionStep, enqueue, hin]
          simp at h ⊢
          omega
  | trackEndOp =>
      cases meta with
      | nil =>
          simp only [sessionStep, RemoveMeta.act, queueAdvance]
          simp [List.length_tail]
          simp at h
          omega
      | cons m ms =>
          simp only [sessionStep, RemoveMeta.act, queueAdvance]
          simp [List.length_tail]
          simp at h
          omega

/-- Length equality after folding any operation sequence from a state
that satisfies it. -/
theorem sessionFold_length (ops : List SessionOp) :
    ∀ s : List TrackMetadata × CallModel, s.1.length = s.2.queue.length →
      (ops.foldl sessionStep s).1.length =
        (ops.foldl sessionStep s).2.queue.length := by
  induction ops with
  | nil => intro s h; simpa using h
  | cons op rest ih =>
      intro s h
      simpa [List.foldl] using ih _ (sessionStep_preserves_length s op h)

/-- Claim C2: for every sequence of completed enqueue and track-end
operations on one session starting from the empty state,
`len(QueueMetadata) = len(playbackQueue)` holds after the sequence
(hence after every completed operation, each prefix being such a
sequence); moreover a successful enqueue appends exactly one element to
each queue, and a track-end on nonempty queues removes exactly one
element from each. -/
theorem queue_lengths_in_lockstep :
    (∀ ops : List SessionOp,
        (sessionRun ops).1.length = (sessionRun ops).2.queue.length) ∧
    (∀ (meta : List TrackMetadata) (call : CallModel) (a : AuxMetadata)
        (src : Nat),
        (sessionStep (meta, call) (.enqueueOp ⟨some a, src⟩)).1.length =
            meta.length + 1 ∧
        (sessionStep (meta, call) (.enqueueOp ⟨some a, src⟩)).2.queue.length =
            call.queue.length + 1) ∧
    (∀ (m : TrackMetadata) (ms : List TrackMetadata) (ch : Option Nat)
        (y : Nat) (ys : List Nat) (hs : List GlobalHandler),
        (sessionStep (m :: ms, ⟨ch, y :: ys, hs⟩) .trackEndOp).1.length + 1 =
            (m :: ms).length ∧
        (sessionStep (m :: ms, ⟨ch, y :: ys, hs⟩)
              .trackEndOp).2.queue.length + 1 =
            (y :: ys).length) := by
  refine ⟨fun ops => sessionFold_length ops ([], CallModel.fresh) rfl, ?_, ?_⟩
  · intro meta call a src
    constructor <;> simp [sessionStep, enqueue, TrackMetadata.from_input]
  · intro m ms ch y ys hs
    constructor <;> simp [sessionStep, RemoveMeta.act, queueAdvance]

/-- UTF-8 byte length distributes over string append. -/
theorem byteLen_append (a b : String) :
    byteLen (a ++ b) = byteLen a + byteLen b := by
  simp [byteLen, String.data_append]

/-- Concatenate rendered lines, each followed by a newline. -/
def renderLines (ls : List String) : String :=
  ls.foldr (fun l acc => (l ++ "\n") ++ acc) ""

/-- Unfolding lemma for `renderLines`. -/
theorem renderLines_cons (l : String) (ls : List String) :
    renderLines (l :: ls) = (l ++ "\n") ++ renderLines ls := rfl

/-- The display loop renders exactly the greedily bounded numbered lines
`specLines`, each terminated by a newline, appended to the buffer. -/
theorem displayLoop_eq_specLines (q : List TrackMetadata) :
    ∀ (num : Nat) (buffer : String),
      QueueMeta.displayLoop q num buffer =
        buffer ++ renderLines (specLines q num (byteLen buffer)) := by
  induction q with
  | nil =>
      intro num buffer
      simp [QueueMeta.displayLoop, specLines, renderLines,
        String.append_empty]
  | cons t rest ih =>
      intro num buffer
      by_cases hb : byteLen buffer + byteLen (numberedLine num t) > 4096
      · simp [QueueMeta.displayLoop, specLines, hb, renderLines,
          String.append_empty]
      · have hlen : byteLen (buffer ++ numberedLine num t ++ "\n") =
            byteLen buffer + byteLen (numberedLine num t) + 1 := by
          rw [byteLen_append, byteLen_append]
          rfl
        have key := ih (num + 1) (buffer ++ numberedLine num t ++ "\n")
        simp only [QueueMeta.displayLoop, specLines, hb, if_neg,
          ite_false, gt_iff_lt, not_lt]
        rw [key, hlen, renderLines_cons]
        simp only [String.append_assoc]

/-- The display loop never grows the buffer past 4097 bytes (4096
checked bytes of lines plus the final line's newline, which the check
does not count). -/
theorem displayLoop_byteLen_le (q : List TrackMetadata) :
    ∀ (num : Nat) (buffer : String),
      byteLen (QueueMeta.displayLoop q num buffer) ≤
        max (byteLen buffer) 4097 := by
  induction q with
  | nil => intro num buffer; simp [QueueMeta.displayLoop]
  | cons t rest ih =>
      intro num buffer
      by_cases hb : byteLen buffer + byteLen (numberedLine num t) > 4096
      · simp only [QueueMeta.displayLoop, if_pos hb]
        exact le_max_left _ _
      · have hlen : byteLen (buffer ++ numberedLine num t ++ "\n") =
            byteLen buffer + byteLen (numberedLine num t) + 1 := by
          rw [byteLen_append, byteLen_append]
          rfl
        simp only [QueueMeta.displayLoop, if_neg hb]
        refine le_trans (ih (num + 1) _) ?_
        rw [hlen]
        have : byteLen buffer + byteLen (numberedLine num t) + 1 ≤ 4097 := by
          omega
        omega

/-- Claim C8 (counterexample): after enqueueing "Song A" then "Song B"
the display is numbered from 0 (Rust `enumerate`), in the backquoted
`` `0.` `` format with the track's display form — nowhere does it
contain the claimed 1-based entry "1. Song A". -/
theorem display_not_one_based :
    QueueMeta.display_string [songA, songB] =
      "`0.` Song A  \n`1.` Song B  \n" ∧
    ¬ List.IsInfix ("1. Song A".data)
        ((QueueMeta.display_string [songA, songB]).data) := by
  constructor
  · rfl
  · decide

/-- Claim C8 (amended): `display_string` is a numbered listing of the
pending tracks in order, numbered from 0: it renders exactly the
greedily bounded lines `specLines` (entries past the 4096-byte bound
silently omitted), the scenario "Song A", "Song B" displays as
`` `0.` Song A`` then `` `1.` Song B`` and after a track-end for A as
`` `0.` Song B`` only, the rendered text never exceeds 4097 bytes, the
empty queue displays "Empty queue!", and (being a total function) the
operation never returns an error. -/
theorem display_string_spec :
    (∀ q : List TrackMetadata, q ≠ [] →
        QueueMeta.display_string q = renderLines (specLines q 0 0)) ∧
    QueueMeta.display_string [songA, songB] =
      "`0.` Song A  \n`1.` Song B  \n" ∧
    QueueMeta.display_string [songB] = "`0.` Song B  \n" ∧
    (∀ q : List TrackMetadata,
        byteLen (QueueMeta.display_string q) ≤ 4097) ∧
    QueueMeta.display_string [] = "Empty queue!" := by
  refine ⟨?_, rfl, rfl, ?_, rfl⟩
  · intro q hq
    cases q with
    | nil => exact absurd rfl hq
    | cons a l =>
        have h1 : QueueMeta.display_string (a :: l) =
            QueueMeta.displayLoop (a :: l) 0 "" := rfl
        rw [h1, displayLoop_eq_specLines (a :: l) 0 ""]
        exact String.empty_append _
  · intro q
    cases q with
    | nil => decide
    | cons a l =>
        have h1 : QueueMeta.display_string (a :: l) =
            QueueMeta.displayLoop (a :: l) 0 "" := rfl
        rw [h1]
        have h2 := displayLoop_byteLen_le (a :: l) 0 ""
        have h3 : max (byteLen "") 4097 = 4097 := by decide
        rw [h3] at h2
        exact h2

/-- Witness for `display_string_spec` (its first conjunct has the
hypothesis `q ≠ []`): instantiated at the one-track queue. -/
theorem display_string_spec_witness :
    QueueMeta.display_string [songA] = renderLines (specLines [songA] 0 0) :=
  display_string_spec.1 [songA] (by simp)

/-- The handler list a task has registered so far, as a function of its
program counter; `none` when the task is not the registering task. -/
def ownerHandlers : TaskPC → Option (List GlobalHandler)
  | .mkEnd => some []
  | .regIdle => some []
  | .regDc => some [.checkIdle 300]
  | .regEnd => some [.checkIdle 300, .disconnectStop]
  | .finished true => some initHandlers
  | .start => none
  | .finished false => none

/-- A non-registering task: not yet run, or returned the existing entry
unchanged. -/
def idlePC (pc : TaskPC) : Prop := pc = .start ∨ pc = .finished false

/-- Interleaving invariant: before any insertion every task is still at
`start`; after the insertion exactly one task owns the wiring and the
entry's handler list is exactly what that owner has registered so far. -/
def RegInv (s : RegState) : Prop :=
  (s.entry = none ∧ ∀ pc ∈ s.tasks, pc = .start) ∨
  (∃ hs, s.entry = some hs ∧
    ∃ k : Fin s.tasks.length,
      ownerHandlers (s.tasks.get k) = some hs ∧
      ∀ j : Fin s.tasks.length, (j : Nat) ≠ (k : Nat) →
        idlePC (s.tasks.get j))

/-- `applyTask` preserves the task count. -/
theorem applyTask_length (s : RegState) (i : Fin s.tasks.length) :
    (applyTask s i).tasks.length = s.tasks.length := by
  simp [applyTask]

/-- Unfolding lemma: the slot after a task's segment. -/
theorem applyTask_entry (s : RegState) (i : Fin s.tasks.length) :
    (applyTask s i).entry = (taskStep s.entry (s.tasks.get i)).1 := rfl

/-- The stepped task's new program counter. -/
theorem applyTask_get_self (s : RegState) (i : Fin s.tasks.length)
    (h : (i : Nat) < (applyTask s i).tasks.length) :
    (applyTask s i).tasks.get ⟨i.1, h⟩ =
      (taskStep s.entry (s.tasks.get i)).2 := by
  simp [applyTask, List.getElem_set_self]

/-- Any other task's program counter is untouched. -/
theorem applyTask_get_ne (s : RegState) (i : Fin s.tasks.length)
    (j : Fin (applyTask s i).tasks.length)
    (hne : (j : Nat) ≠ (i : Nat)) :
    (applyTask s i).tasks.get j =
      s.tasks.get ⟨j.1, lt_of_lt_of_eq j.2 (applyTask_length s i)⟩ := by
  simp [applyTask, List.getElem_set_ne (Ne.symm hne)]

/-- One atomic segment of any task preserves the interleaving
invariant. -/
theorem regInv_step (s : RegState) (i : Fin s.tasks.length)
    (hinv : RegInv s) : RegInv (applyTask s i) := by
  rcases hinv with ⟨hnone, hall⟩ | ⟨hs, hsome, k, hk, hoth⟩
  · have hpc : s.tasks.get i = .start := hall _ (List.get_mem _ i.1 i.2)
    right
    refine ⟨[], ?_,
      ⟨i.1, lt_of_lt_of_eq i.2 (applyTask_length s i).symm⟩, ?_, ?_⟩
    · rw [applyTask_entry, hpc, hnone]
      rfl
    · rw [applyTask_get_self, hpc, hnone]
      rfl
    · intro j hj
      rw [applyTask_get_ne s i j (by simpa using hj)]
      exact Or.inl (hall _ (List.get_mem _ _ _))
  · by_cases hik : (i : Nat) = (k : Nat)
    · have hik2 : i = k := Fin.ext hik
      subst hik2
      right
      cases hpc : s.tasks.get i with
      | start =>
          rw [hpc] at hk
          exact absurd hk (by simp [ownerHandlers])
      | mkEnd =>
          rw [hpc] at hk
          simp only [ownerHandlers, Option.some.injEq] at hk
          subst hk
          refine ⟨[], ?_,
            ⟨i.1, lt_of_lt_of_eq i.2 (applyTask_length s i).symm⟩, ?_, ?_⟩
          · rw [applyTask_entry, hpc, hsome]
            rfl
          · rw [applyTask_get_self, hpc, hsome]
            rfl
          · intro j hj
            rw [applyTask_get_ne s i j (by simpa using hj)]
            exact hoth _ (by simpa using hj)
      | regIdle =>
          rw [hpc] at hk
          simp only [ownerHandlers, Option.some.injEq] at hk
          subst hk
          refine ⟨[.checkIdle 300], ?_,
            ⟨i.1, lt_of_lt_of_eq i.2 (applyTask_length s i).symm⟩, ?_, ?_⟩
          · rw [applyTask_entry, hpc, hsome]
            rfl
          · rw [applyTask_get_self, hpc, hsome]
            rfl
          · intro j hj
            rw [applyTask_get_ne s i j (by simpa using hj)]
            exact hoth _ (by simpa using hj)
      | regDc =>
          rw [hpc] at hk
          simp only [ownerHandlers, Option.some.injEq] at hk
          subst hk
          refine ⟨[.checkIdle 300, .disconnectStop], ?_,
            ⟨i.1, lt_of_lt_of_eq i.2 (applyTask_length s i).symm⟩, ?_, ?_⟩
          · rw [applyTask_entry, hpc, hsome]
            rfl
          · rw [applyTask_get_self, hpc, hsome]
            rfl
          · intro j hj
            rw [applyTask_get_ne s i j (by simpa using hj)]
            exact hoth _ (by simpa using hj)
      | regEnd =>
          rw [hpc] at hk
          simp only [ownerHandlers, Option.some.injEq] at hk
          subst hk
          refine ⟨initHandlers, ?_,
            ⟨i.1, lt_of_lt_of_eq i.2 (applyTask_length s i).symm⟩, ?_, ?_⟩
          · rw [applyTask_entry, hpc, hsome]
            rfl
          · rw [applyTask_get_self, hpc, hsome]
            rfl
          · intro j hj
            rw [applyTask_get_ne s i j (by simpa using hj)]
            exact hoth _ (by simpa using hj)
      | finished b =>
          cases b with
          | false =>
              rw [hpc] at hk
              exact absurd hk (by simp [ownerHandlers])
          | true =>
              rw [hpc] at hk
              simp only [ownerHandlers, Option.some.injEq] at hk
              subst hk
              refine ⟨initHandlers, ?_,
                ⟨i.1, lt_of_lt_of_eq i.2 (applyTask_length s i).symm⟩, ?_, ?_⟩
              · rw [applyTask_entry, hpc, hsome]
                rfl
              · rw [applyTask_get_self, hpc, hsome]
                rfl
              · intro j hj
                rw [applyTask_get_ne s i j (by simpa using hj)]
                exact hoth _ (by simpa using hj)
    · have hidle : idlePC (s.tasks.get i) := hoth i hik
      right
      refine ⟨hs, ?_,
        ⟨k.1, lt_of_lt_of_eq k.2 (applyTask_length s i).symm⟩, ?_, ?_⟩
      · rcases hidle with hstart | hdone
        · rw [applyTask_entry, hstart, hsome]
          rfl
        · rw [applyTask_entry, hdone, hsome]
          rfl
      · rw [applyTask_get_ne s i _ (fun h => hik (Eq.symm h))]
        exact hk
      · intro j hj
        by_cases hji : (j : Nat) = (i : Nat)
        · have hji2 : j =
              ⟨i.1, lt_of_lt_of_eq i.2 (applyTask_length s i).symm⟩ :=
            Fin.ext hji
          rw [hji2, applyTask_get_self]
          rcases hidle with hstart | hdone
          · rw [hstart, hsome]
            exact Or.inr rfl
          · rw [hdone, hsome]
            exact Or.inr rfl
        · rw [applyTask_get_ne s i j hji]
          exact hoth _ (by simpa using hj)

/-- Every state reachable from `n` concurrent `init_global_events`
invocations satisfies the interleaving invariant. -/
theorem regInv_reachable (n : Nat) (s : RegState)
    (h : regReachable n s) : RegInv s := by
  induction h with
  | refl =>
      left
      exact ⟨rfl, fun pc hpc => List.eq_of_mem_replicate hpc⟩
  | tail hab hbc ih =>
      obtain ⟨i, rfl⟩ := hbc
      exact regInv_step _ i ih

/-- Claim C3: however many concurrent `init_global_events` invocations
interleave (at their `await` points) for one session, once all have
completed the entry holds exactly the three handlers, registered once,
by exactly one invocation — every other invocation found the entry and
finished without registering; and an invocation that observes an
existing entry leaves the entry (and its registered handlers)
unchanged. -/
theorem handlers_registered_exactly_once (n : Nat) (s : RegState)
    (hre : regReachable n s) (hn : 0 < n)
    (hfin : ∀ pc ∈ s.tasks, ∃ b, pc = .finished b) :
    s.entry = some initHandlers ∧
    (∃ k : Fin s.tasks.length, s.tasks.get k = .finished true ∧
        ∀ j : Fin s.tasks.length, (j : Nat) ≠ (k : Nat) →
          s.tasks.get j = .finished false) ∧
    (∀ (t : RegState) (i : Fin t.tasks.length) (hs : List GlobalHandler),
        t.entry = some hs → t.tasks.get i = .start →
        (applyTask t i).entry = some hs) := by
  have hlen : s.tasks.length = n := by
    clear hfin hn
    induction hre with
    | refl => simp [regInit]
    | tail hab hbc ih =>
        obtain ⟨i, rfl⟩ := hbc
        rw [applyTask_length]
        exact ih
  rcases regInv_reachable n s hre with ⟨hnone, hall⟩ | ⟨hs, hsome, k, hk, hoth⟩
  · exfalso
    have hpos : 0 < s.tasks.length := by omega
    have h0 := hall _ (List.get_mem _ 0 hpos)
    obtain ⟨b, hb⟩ := hfin _ (List.get_mem _ 0 hpos)
    rw [h0] at hb
    simp at hb
  · obtain ⟨b, hb⟩ := hfin _ (List.get_mem _ k.1 k.2)
    rw [hb] at hk
    cases b with
    | false => simp [ownerHandlers] at hk
    | true =>
        simp only [ownerHandlers, Option.some.injEq] at hk
        subst hk
        refine ⟨hsome, ⟨k, hb, ?_⟩, ?_⟩
        · intro j hj
          rcases hoth j hj with hstart | hdone
          · obtain ⟨b', hb'⟩ := hfin _ (List.get_mem _ j.1 j.2)
            rw [hstart] at hb'
            simp at hb'
          · exact hdone
        · intro t i hs h1 h2
          rw [applyTask_entry, h2, h1]
          rfl

/-- Witness for `handlers_registered_exactly_once`: one invocation run
to completion registers the three handlers. -/
theorem handlers_registered_exactly_once_witness :
    (RegState.mk (some initHandlers) [.finished true]).entry =
      some initHandlers := by
  have h01 : RegStep (regInit 1) ⟨some [], [.mkEnd]⟩ :=
    ⟨⟨0, by decide⟩, by decide⟩
  have h12 : RegStep ⟨some [], [.mkEnd]⟩ ⟨some [], [.regIdle]⟩ :=
    ⟨⟨0, by decide⟩, by decide⟩
  have h23 : RegStep ⟨some [], [.regIdle]⟩
      ⟨some [.checkIdle 300], [.regDc]⟩ :=
    ⟨⟨0, by decide⟩, by decide⟩
  have h34 : RegStep ⟨some [.checkIdle 300], [.regDc]⟩
      ⟨some [.checkIdle 300, .disconnectStop], [.regEnd]⟩ :=
    ⟨⟨0, by decide⟩, by decide⟩
  have h45 : RegStep ⟨some [.checkIdle 300, .disconnectStop], [.regEnd]⟩
      ⟨some initHandlers, [.finished true]⟩ :=
    ⟨⟨0, by decide⟩, by decide⟩
  have hreach : regReachable 1 ⟨some initHandlers, [.finished true]⟩ :=
    .head h01 (.head h12 (.head h23 (.head h34 (.head h45 .refl))))
  exact (handlers_registered_exactly_once 1 _ hreach (by decide)
    (by decide)).1

/-- Witness for `enqueue_error_atomic` at an input whose
`aux_metadata()` fails. -/
theorem enqueue_error_atomic_witness :
    enqueue [songA] CallModel.fresh ⟨none, 3⟩ =
      { meta := [songA], call := CallModel.fresh,
        result := .error .metadataError } :=
  enqueue_error_atomic [songA] CallModel.fresh ⟨none, 3⟩ .metadataError rfl
